import Mathlib

/-!
Verification of the RekrusiveScraper crawler (src/main.py) against its
specification.  The program is embedded shallowly: the network and the
filesystem are abstracted into a `World` (what each fetch returns) and a
chronological trace of `Event`s (what the program does to the outside),
and the recursive `scrape` driver is translated function by function.
-/

abbrev Url := String
abbrev FPath := String

/-- The data the crawler reads off one successfully fetched and parsed page
(the parsing collaborator BeautifulSoup is abstracted): the stripped text
of every matched element (`p`, `h1`..`h6`, `li`) in document order
(`element.get_text(strip=True)`, possibly the empty string), the `src`
attribute of every `<img src=...>` in document order, and the `href`
attribute of every `<a href=...>` in document order. -/
structure Page where
  texts : List String
  imgSrcs : List String
  hrefs : List String
deriving Repr, DecidableEq

/-- The external collaborators: `requests.get` for pages and for images
(`none` models a `requests.RequestException`, i.e. a transport error or a
non-2xx status surfaced by `raise_for_status`), and `urllib.parse.urljoin`. -/
structure World where
  fetchPage : Url → Option Page
  fetchImage : Url → Option (List Nat)
  urljoin : Url → String → Url

/-- One observable external action of the program, in chronological order.
`fetchPage` carries the crawl depth and `writeText` carries the scraped
page's URL as instrumentation (ghost data): they record which invocation
issued the action, not extra program behaviour.  The prints issued by
`download_image` are recorded as `logImage`, the other prints as `log`. -/
inductive Event where
  | makeDir (p : FPath)
  | fetchPage (u : Url) (depth : Nat) (ok : Bool)
  | writeText (pageUrl : Url) (p : FPath) (content : String)
  | fetchImage (u : Url) (ok : Bool)
  | writeImage (p : FPath)
  | log (msg : String)
  | logImage (msg : String)
deriving Repr, DecidableEq

/-- The mutable state of the program: the global `visitedUrls` set
(modelled as a list, tested by membership) and the trace of events so far. -/
structure CrawlState where
  visitedUrls : List Url
  events : List Event
deriving Repr, DecidableEq

def initState : CrawlState := ⟨[], []⟩

/-- `urlparse(url).netloc`: the host component, present only after `//`
(either right after the scheme's colon or at the start of the URL),
extending to the next `/`, `?` or `#`. -/
def netlocChars : List Char → List Char
  | [] => []
  | ':' :: '/' :: '/' :: rest =>
      rest.takeWhile (fun c => c ≠ '/' && c ≠ '?' && c ≠ '#')
  | _ :: cs => netlocChars cs

def netloc (url : Url) : String :=
  match url.data with
  | '/' :: '/' :: rest =>
      String.mk (rest.takeWhile (fun c => c ≠ '/' && c ≠ '?' && c ≠ '#'))
  | cs => String.mk (netlocChars cs)

/-- `domain.replace(".", "_")`: every `.` becomes `_` (the pattern is a
single character, so the replacement is character-wise). -/
def replaceDots (s : String) : String :=
  String.mk (s.data.map (fun c => if c = '.' then '_' else c))

/-- The directory name computed by `get_domain_folder` (src/main.py:13-19):
`os.path.join("data", urlparse(url).netloc.replace(".", "_"))`.  The
`os.makedirs` side effect is recorded by the caller as a `makeDir` event. -/
def get_domain_folder (url : Url) : FPath :=
  "data/" ++ replaceDots (netloc url)

/-- `img_url.split("?")[0]`: the URL up to the first `?`. -/
def splitQuery (s : String) : String :=
  String.mk (s.data.takeWhile (· ≠ '?'))

/-- `os.path.basename`: the part after the last `/`. -/
def basename (s : String) : String :=
  String.mk ((s.data.reverse.takeWhile (· ≠ '/')).reverse)

/-- One character of `re.sub(r"[^\w\.]", "_", ...)`: characters in the
word class (alphanumeric or underscore) and the period are kept, every
other character becomes `_`. -/
def sanitizeChar (c : Char) : Char :=
  if c.isAlphanum || c = '_' || c = '.' then c else '_'

/-- The stored image filename (src/main.py:30-31):
`re.sub(r"[^\w\.]", "_", os.path.basename(img_url.split("?")[0]))`. -/
def image_name (img_url : Url) : String :=
  String.mk ((basename (splitQuery img_url)).data.map sanitizeChar)

/-- `download_image` (src/main.py:21-40), the body of the `try:` block:
fetch the image; on success derive the sanitized filename and write the
body to `folder_path/filename`; a `RequestException` is propagated as
`Except.error`. -/
def download_image_try (w : World) (img_url : Url) (folder_path : FPath) :
    Except String (List Event) :=
  match w.fetchImage img_url with
  | none => Except.error ("Failed to download image " ++ img_url)
  | some _bytes =>
      let img_name := image_name img_url
      Except.ok [Event.fetchImage img_url true,
                 Event.writeImage (folder_path ++ "/" ++ img_name),
                 Event.logImage ("Downloaded image: " ++ img_name)]

/-- `download_image` (src/main.py:21-40): the `try:` body with its
`except requests.RequestException` handler, which logs and returns
normally.  A failed fetch is still recorded in the trace as a
`fetchImage _ false` event. -/
def download_image (w : World) (img_url : Url) (folder_path : FPath)
    (s : CrawlState) : CrawlState :=
  match download_image_try w img_url folder_path with
  | Except.ok evs => { s with events := s.events ++ evs }
  | Except.error msg =>
      { s with events := s.events ++ [Event.fetchImage img_url false,
                                      Event.logImage msg] }

/-- The `for img_url in img_urls: download_image(img_url, img_folder)`
loop (src/main.py:83-84). -/
def downloadImages (w : World) (imgUrls : List Url) (folder : FPath)
    (s : CrawlState) : CrawlState :=
  match imgUrls with
  | [] => s
  | u :: us => downloadImages w us folder (download_image w u folder s)

/-- Maximum recursion depth (src/main.py:8). -/
def maxRekrusion : Nat := 100

/-- Lines 56-58 of src/main.py: if `base_folder is None` the site root is
computed by `get_domain_folder` (which also creates the directory, hence
the `makeDir` event); otherwise the passed folder is used unchanged. -/
def resolveBase (url : Url) : Option FPath → FPath × List Event
  | some b => (b, [])
  | none => (get_domain_folder url, [Event.makeDir (get_domain_folder url)])

/-- Line 77 of src/main.py: `"\n".join(element.get_text(strip=True) for
element in soup.find_all([p, h1..h6, li]))`. -/
def page_text_of (p : Page) : String :=
  String.intercalate "\n" p.texts

/-- Line 78 of src/main.py: `os.path.join(text_folder, f"page_{depth}.txt")`. -/
def page_filename (base : FPath) (depth : Nat) : FPath :=
  base ++ "/text/page_" ++ toString depth ++ ".txt"

/-- The successful-fetch part of one `scrape` invocation
(src/main.py:67-84): record the page fetch, write the page text to
`page_filename` (`save_text`, line 79), then download every image of the
page in document order (lines 82-84).  Returns the state handed to the
link-recursion loop. -/
def processPage (w : World) (url : Url) (depth : Nat) (base : FPath)
    (page : Page) (s : CrawlState) : CrawlState :=
  let s1 := { s with events := s.events ++
      [Event.fetchPage url depth true,
       Event.writeText url (page_filename base depth) (page_text_of page)] }
  downloadImages w (page.imgSrcs.map (w.urljoin url)) (base ++ "/img") s1

mutual

/-- `scrape` (src/main.py:48-90).  Gate (line 50): return if the URL is
visited or the depth reached `maxRekrusion`.  Otherwise: print, mark
visited (lines 53-54), resolve the site root (lines 56-58), create the
`img` and `text` subdirectories (lines 61-64), fetch the page (lines
66-71, logging and returning on failure), write the text, download the
images, and recurse on every not-yet-visited link at `depth + 1` with the
same base folder (lines 87-90). -/
def scrape (w : World) (url : Url) (depth : Nat) (base_folder : Option FPath)
    (s : CrawlState) : CrawlState :=
  if url ∈ s.visitedUrls ∨ maxRekrusion ≤ depth then s
  else
    let s1 : CrawlState :=
      { visitedUrls := url :: s.visitedUrls,
        events := s.events ++
          [Event.log ("Scraping: " ++ url ++ " depth " ++ toString depth)] }
    let rb := resolveBase url base_folder
    let base := rb.1
    let s2 : CrawlState := { s1 with events := s1.events ++ rb.2 }
    let s3 : CrawlState := { s2 with events := s2.events ++
        [Event.makeDir (base ++ "/img"), Event.makeDir (base ++ "/text")] }
    match w.fetchPage url with
    | none =>
        { s3 with events := s3.events ++
            [Event.fetchPage url depth false,
             Event.log ("Failed to retrieve " ++ url)] }
    | some page =>
        scrapeLinks w (page.hrefs.map (w.urljoin url)) (depth + 1) base
          (processPage w url depth base page s3)
termination_by (maxRekrusion - depth, 0)

/-- The `for link in new_urls: if link not in visitedUrls: scrape(link,
depth + 1, base_folder)` loop (src/main.py:88-90), in document order. -/
def scrapeLinks (w : World) (links : List Url) (depth : Nat) (base : FPath)
    (s : CrawlState) : CrawlState :=
  match links with
  | [] => s
  | l :: ls =>
      let s' := if l ∈ s.visitedUrls then s else scrape w l depth (some base) s
      scrapeLinks w ls depth base s'
termination_by (maxRekrusion - depth, links.length + 1)

end

/-- The crawl of a seed URL (src/main.py:93-94): `scrape(url)` with
`depth = 0`, no base folder, and the empty visited set. -/
def crawl (w : World) (seed : Url) : CrawlState :=
  scrape w seed 0 none initState

/-- The URLs passed to `requests.get` for pages, in order. -/
def pageFetches (evs : List Event) : List Url :=
  evs.filterMap fun e =>
    match e with
    | Event.fetchPage u _ _ => some u
    | _ => none

/-- The page fetches together with the depth of the issuing invocation. -/
def pageFetchesD (evs : List Event) : List (Url × Nat) :=
  evs.filterMap fun e =>
    match e with
    | Event.fetchPage u d _ => some (u, d)
    | _ => none

/-- The text files written, as (page URL, path, content). -/
def textWrites (evs : List Event) : List (Url × FPath × String) :=
  evs.filterMap fun e =>
    match e with
    | Event.writeText u p c => some (u, p, c)
    | _ => none

/-- The directories created, in order. -/
def dirsMade (evs : List Event) : List FPath :=
  evs.filterMap fun e =>
    match e with
    | Event.makeDir p => some p
    | _ => none

/-- Whether an event originates in `download_image` (image fetches, image
writes, and the prints of `download_image`). -/
def isImageEvent : Event → Bool
  | Event.fetchImage _ _ => true
  | Event.writeImage _ => true
  | Event.logImage _ => true
  | _ => false

/-- The trace with every `download_image` action erased: what the crawl
does to pages, directories and text files. -/
def pageView (evs : List Event) : List Event :=
  evs.filter (fun e => !isImageEvent e)

/-- The pure trace of `download_image` on one image URL. -/
def imageEvents (w : World) (img_url : Url) (folder : FPath) : List Event :=
  match download_image_try w img_url folder with
  | Except.ok evs => evs
  | Except.error msg => [Event.fetchImage img_url false, Event.logImage msg]

/-- The pure trace of the image-download loop. -/
def imageEventsOf (w : World) (imgUrls : List Url) (folder : FPath) :
    List Event :=
  match imgUrls with
  | [] => []
  | u :: us => imageEvents w u folder ++ imageEventsOf w us folder

/-- The crawl invariant behind the fetch-once property: the page fetches
issued so far are pairwise distinct, and every fetched URL is in the
visited set. -/
def CrawlInv (s : CrawlState) : Prop :=
  (pageFetches s.events).Nodup ∧
  ∀ u ∈ pageFetches s.events, u ∈ s.visitedUrls

/-- The site root a `scrape` invocation works under: the passed base
folder, or the one derived from its own URL when none was passed. -/
def rootOf (url : Url) : Option FPath → FPath
  | some b => b
  | none => get_domain_folder url

/-- Path discipline of one artifact event relative to a site root `B`:
directories are the root and its `img` and `text` children, text files
are depth-keyed files in `text`, images live in `img`. -/
def underRootEv (B : FPath) : Event → Prop
  | Event.makeDir p => p = B ∨ p = B ++ "/img" ∨ p = B ++ "/text"
  | Event.writeText _ p _ => ∃ d, p = page_filename B d
  | Event.writeImage p => ∃ n, p = B ++ "/img" ++ "/" ++ n
  | _ => True

/-- State extension under a site root: the visited set only grows and the
trace is extended with events whose paths respect the root `B`. -/
def ExtUnder (B : FPath) (s t : CrawlState) : Prop :=
  (∀ v ∈ s.visitedUrls, v ∈ t.visitedUrls) ∧
  ∃ Δ, t.events = s.events ++ Δ ∧ ∀ e ∈ Δ, underRootEv B e

/-- Two crawl states that agree on everything except image-fetching
activity: same visited set, same page-level trace. -/
def pageRel (a b : CrawlState) : Prop :=
  a.visitedUrls = b.visitedUrls ∧ pageView a.events = pageView b.events

/-- The specification's (amended) reading of the text extraction: every
matched element contributes one line holding its stripped text (possibly
empty), consecutive lines separated by a single newline. -/
def specTextAmended : List String → String
  | [] => ""
  | [t] => t
  | t :: ts => t ++ "\n" ++ specTextAmended ts

/-- The specification's original reading of the text extraction: elements
with no text contribute nothing at all, not even a blank line. -/
def specTextOriginal (ts : List String) : String :=
  specTextAmended (ts.filter (fun t => t ≠ ""))

/-- Tail recursion of `"\n".join`: the separator-then-item suffix. -/
def joinSuffix (sep : String) : List String → String
  | [] => ""
  | t :: ts => sep ++ t ++ joinSuffix sep ts

/-- The specification's sanitizer character class, stated propositionally:
letters, digits, underscore and period are kept, all else becomes `_`. -/
def specSanitizeChar (c : Char) : Char :=
  if c.isAlpha ∨ c.isDigit ∨ c = '_' ∨ c = '.' then c else '_'

/-- The specification's reading of the final path segment: scan the
characters left to right, collecting the current segment and starting
afresh after every `/`. -/
def specLastSegment : List Char → List Char → List Char
  | acc, [] => acc.reverse
  | acc, c :: cs =>
      if c = '/' then specLastSegment [] cs else specLastSegment (c :: acc) cs

/-- The specification's reading of the stored image filename: strip the
query string, take the final path segment, sanitize character-wise. -/
def specImageName (img_url : Url) : String :=
  String.mk ((specLastSegment [] (splitQuery img_url).data).map specSanitizeChar)

/-- The specification's dot-to-underscore host mangling, stated as direct
recursion over the characters. -/
def specUnderscoreHost : List Char → List Char
  | [] => []
  | c :: cs => (if c = '.' then '_' else c) :: specUnderscoreHost cs

/-! ### Concrete worlds for evaluation -/

/-- `p` lies in directory tree `root`: `root` is a character prefix of `p`. -/
def pathUnder (root p : FPath) : Prop :=
  p.data.take root.data.length = root.data

instance (root p : FPath) : Decidable (pathUnder root p) :=
  inferInstanceAs (Decidable (p.data.take root.data.length = root.data))

/-- A crawl that crosses hosts: the seed on host `a.com` links to a page
on host `b.com`; no images anywhere. -/
def wCross : World :=
  { fetchPage := fun u =>
      if u = "http://a.com/" then some ⟨["A"], [], ["http://b.com/"]⟩
      else if u = "http://b.com/" then some ⟨["B"], [], []⟩
      else none,
    fetchImage := fun _ => none,
    urljoin := fun _ r => r }

/-- A small link tree on one host: the seed links to `a` and `b`, and `a`
links further to `a1`. -/
def wTree : World :=
  { fetchPage := fun u =>
      if u = "http://s.com/" then
        some ⟨[], [], ["http://s.com/a", "http://s.com/b"]⟩
      else if u = "http://s.com/a" then some ⟨[], [], ["http://s.com/a1"]⟩
      else if u = "http://s.com/a1" then some ⟨[], [], []⟩
      else if u = "http://s.com/b" then some ⟨[], [], []⟩
      else none,
    fetchImage := fun _ => none,
    urljoin := fun _ r => r }

/-- A three-page site under one host with one image and two sibling pages
reached at the same depth. -/
def wSite : World :=
  { fetchPage := fun u =>
      if u = "http://h.com/" then
        some ⟨["T"], ["http://h.com/i.png"],
              ["http://h.com/a", "http://h.com/b"]⟩
      else if u = "http://h.com/a" then some ⟨["TA"], [], []⟩
      else if u = "http://h.com/b" then some ⟨["TB"], [], []⟩
      else none,
    fetchImage := fun _ => some [0],
    urljoin := fun _ r => r }

/-- `wSite` with an image service that always fails. -/
def wSiteImgFail : World :=
  { fetchPage := wSite.fetchPage,
    fetchImage := fun _ => none,
    urljoin := wSite.urljoin }

/-- A world where every page and image fetch fails. -/
def wFail : World :=
  { fetchPage := fun _ => none,
    fetchImage := fun _ => none,
    urljoin := fun _ r => r }

/-! ### Trace computation lemmas -/

@[simp] theorem pageFetches_nil : pageFetches [] = [] := rfl

@[simp] theorem pageFetches_append (a b : List Event) :
    pageFetches (a ++ b) = pageFetches a ++ pageFetches b :=
  List.filterMap_append ..

@[simp] theorem pageFetches_cons_makeDir (p : FPath) (es : List Event) :
    pageFetches (Event.makeDir p :: es) = pageFetches es := rfl

@[simp] theorem pageFetches_cons_fetchPage (u : Url) (d : Nat) (ok : Bool)
    (es : List Event) :
    pageFetches (Event.fetchPage u d ok :: es) = u :: pageFetches es := rfl

@[simp] theorem pageFetches_cons_writeText (u : Url) (p : FPath) (c : String)
    (es : List Event) :
    pageFetches (Event.writeText u p c :: es) = pageFetches es := rfl

@[simp] theorem pageFetches_cons_fetchImage (u : Url) (ok : Bool)
    (es : List Event) :
    pageFetches (Event.fetchImage u ok :: es) = pageFetches es := rfl

@[simp] theorem pageFetches_cons_writeImage (p : FPath) (es : List Event) :
    pageFetches (Event.writeImage p :: es) = pageFetches es := rfl

@[simp] theorem pageFetches_cons_log (m : String) (es : List Event) :
    pageFetches (Event.log m :: es) = pageFetches es := rfl

@[simp] theorem pageFetches_cons_logImage (m : String) (es : List Event) :
    pageFetches (Event.logImage m :: es) = pageFetches es := rfl

@[simp] theorem textWrites_nil : textWrites [] = [] := rfl

@[simp] theorem textWrites_append (a b : List Event) :
    textWrites (a ++ b) = textWrites a ++ textWrites b :=
  List.filterMap_append ..

@[simp] theorem textWrites_cons_makeDir (p : FPath) (es : List Event) :
    textWrites (Event.makeDir p :: es) = textWrites es := rfl

@[simp] theorem textWrites_cons_fetchPage (u : Url) (d : Nat) (ok : Bool)
    (es : List Event) :
    textWrites (Event.fetchPage u d ok :: es) = textWrites es := rfl

@[simp] theorem textWrites_cons_writeText (u : Url) (p : FPath) (c : String)
    (es : List Event) :
    textWrites (Event.writeText u p c :: es) = (u, p, c) :: textWrites es := rfl

@[simp] theorem textWrites_cons_fetchImage (u : Url) (ok : Bool)
    (es : List Event) :
    textWrites (Event.fetchImage u ok :: es) = textWrites es := rfl

@[simp] theorem textWrites_cons_writeImage (p : FPath) (es : List Event) :
    textWrites (Event.writeImage p :: es) = textWrites es := rfl

@[simp] theorem textWrites_cons_log (m : String) (es : List Event) :
    textWrites (Event.log m :: es) = textWrites es := rfl

@[simp] theorem textWrites_cons_logImage (m : String) (es : List Event) :
    textWrites (Event.logImage m :: es) = textWrites es := rfl

@[simp] theorem dirsMade_nil : dirsMade [] = [] := rfl

@[simp] theorem dirsMade_append (a b : List Event) :
    dirsMade (a ++ b) = dirsMade a ++ dirsMade b :=
  List.filterMap_append ..

@[simp] theorem dirsMade_cons_makeDir (p : FPath) (es : List Event) :
    dirsMade (Event.makeDir p :: es) = p :: dirsMade es := rfl

@[simp] theorem dirsMade_cons_fetchPage (u : Url) (d : Nat) (ok : Bool)
    (es : List Event) :
    dirsMade (Event.fetchPage u d ok :: es) = dirsMade es := rfl

@[simp] theorem dirsMade_cons_writeText (u : Url) (p : FPath) (c : String)
    (es : List Event) :
    dirsMade (Event.writeText u p c :: es) = dirsMade es := rfl

@[simp] theorem dirsMade_cons_fetchImage (u : Url) (ok : Bool)
    (es : List Event) :
    dirsMade (Event.fetchImage u ok :: es) = dirsMade es := rfl

@[simp] theorem dirsMade_cons_writeImage (p : FPath) (es : List Event) :
    dirsMade (Event.writeImage p :: es) = dirsMade es := rfl

@[simp] theorem dirsMade_cons_log (m : String) (es : List Event) :
    dirsMade (Event.log m :: es) = dirsMade es := rfl

@[simp] theorem dirsMade_cons_logImage (m : String) (es : List Event) :
    dirsMade (Event.logImage m :: es) = dirsMade es := rfl

@[simp] theorem pageView_nil : pageView [] = [] := rfl

@[simp] theorem pageView_append (a b : List Event) :
    pageView (a ++ b) = pageView a ++ pageView b :=
  List.filter_append ..

@[simp] theorem pageView_cons_makeDir (p : FPath) (es : List Event) :
    pageView (Event.makeDir p :: es) = Event.makeDir p :: pageView es := rfl

@[simp] theorem pageView_cons_fetchPage (u : Url) (d : Nat) (ok : Bool)
    (es : List Event) :
    pageView (Event.fetchPage u d ok :: es) =
      Event.fetchPage u d ok :: pageView es := rfl

@[simp] theorem pageView_cons_writeText (u : Url) (p : FPath) (c : String)
    (es : List Event) :
    pageView (Event.writeText u p c :: es) =
      Event.writeText u p c :: pageView es := rfl

@[simp] theorem pageView_cons_fetchImage (u : Url) (ok : Bool)
    (es : List Event) :
    pageView (Event.fetchImage u ok :: es) = pageView es := rfl

@[simp] theorem pageView_cons_writeImage (p : FPath) (es : List Event) :
    pageView (Event.writeImage p :: es) = pageView es := rfl

@[simp] theorem pageView_cons_log (m : String) (es : List Event) :
    pageView (Event.log m :: es) = Event.log m :: pageView es := rfl

@[simp] theorem pageView_cons_logImage (m : String) (es : List Event) :
    pageView (Event.logImage m :: es) = pageView es := rfl

/-! ### The image loop only appends image events -/

theorem download_image_eq (w : World) (u : Url) (folder : FPath)
    (s : CrawlState) :
    download_image w u folder s =
      { s with events := s.events ++ imageEvents w u folder } := by
  unfold download_image imageEvents
  cases download_image_try w u folder <;> rfl

theorem downloadImages_eq (w : World) (us : List Url) (folder : FPath)
    (s : CrawlState) :
    downloadImages w us folder s =
      { s with events := s.events ++ imageEventsOf w us folder } := by
  induction us generalizing s with
  | nil => simp [downloadImages, imageEventsOf]
  | cons u us ih =>
      rw [downloadImages, download_image_eq, ih, imageEventsOf]
      simp

theorem imageEvents_isImage (w : World) (u : Url) (folder : FPath) :
    ∀ e ∈ imageEvents w u folder, isImageEvent e = true := by
  intro e he
  unfold imageEvents download_image_try at he
  cases hf : w.fetchImage u <;> rw [hf] at he <;> simp at he
  · rcases he with h | h <;> subst h <;> rfl
  · rcases he with h | h | h <;> subst h <;> rfl

theorem imageEventsOf_isImage (w : World) (us : List Url) (folder : FPath) :
    ∀ e ∈ imageEventsOf w us folder, isImageEvent e = true := by
  induction us with
  | nil => intro e he; simp [imageEventsOf] at he
  | cons u us ih =>
      intro e he
      rw [imageEventsOf] at he
      rcases List.mem_append.1 he with h | h
      · exact imageEvents_isImage w u folder e h
      · exact ih e h

theorem pageView_of_isImage (es : List Event)
    (h : ∀ e ∈ es, isImageEvent e = true) : pageView es = [] := by
  induction es with
  | nil => rfl
  | cons e es ih =>
      rw [pageView, List.filter_cons]
      rw [h e (List.mem_cons_self ..)]
      exact ih (fun e' he' => h e' (List.mem_cons_of_mem _ he'))

theorem pageFetches_of_isImage (es : List Event)
    (h : ∀ e ∈ es, isImageEvent e = true) : pageFetches es = [] := by
  induction es with
  | nil => rfl
  | cons e es ih =>
      have he := h e (List.mem_cons_self ..)
      have ih' := ih (fun e' he' => h e' (List.mem_cons_of_mem _ he'))
      cases e <;> simp_all [isImageEvent]

theorem textWrites_of_isImage (es : List Event)
    (h : ∀ e ∈ es, isImageEvent e = true) : textWrites es = [] := by
  induction es with
  | nil => rfl
  | cons e es ih =>
      have he := h e (List.mem_cons_self ..)
      have ih' := ih (fun e' he' => h e' (List.mem_cons_of_mem _ he'))
      cases e <;> simp_all [isImageEvent]

theorem dirsMade_of_isImage (es : List Event)
    (h : ∀ e ∈ es, isImageEvent e = true) : dirsMade es = [] := by
  induction es with
  | nil => rfl
  | cons e es ih =>
      have he := h e (List.mem_cons_self ..)
      have ih' := ih (fun e' he' => h e' (List.mem_cons_of_mem _ he'))
      cases e <;> simp_all [isImageEvent]

/-! ### Fetch-once invariant -/

theorem resolveBase_fst (url : Url) (b : Option FPath) :
    (resolveBase url b).1 = match b with
      | some x => x
      | none => get_domain_folder url := by
  cases b <;> rfl

theorem pageFetches_resolveBase (url : Url) (b : Option FPath) :
    pageFetches (resolveBase url b).2 = [] := by
  cases b <;> rfl

theorem textWrites_resolveBase (url : Url) (b : Option FPath) :
    textWrites (resolveBase url b).2 = [] := by
  cases b <;> rfl

theorem pageView_resolveBase (url : Url) (b : Option FPath) :
    pageView (resolveBase url b).2 = (resolveBase url b).2 := by
  cases b <;> rfl

theorem CrawlInv_processPage (w : World) (url : Url) (depth : Nat)
    (base : FPath) (page : Page) (t s : CrawlState)
    (hv : t.visitedUrls = url :: s.visitedUrls)
    (hf : pageFetches t.events = pageFetches s.events)
    (hnv : url ∉ s.visitedUrls) (hI : CrawlInv s) :
    CrawlInv (processPage w url depth base page t) := by
  have himg := pageFetches_of_isImage _
    (imageEventsOf_isImage w (page.imgSrcs.map (w.urljoin url)) (base ++ "/img"))
  rw [processPage, downloadImages_eq]
  constructor
  · simp only [pageFetches_append, pageFetches_cons_fetchPage,
      pageFetches_cons_writeText, pageFetches_nil, himg, List.append_nil, hf]
    rw [List.nodup_append]
    refine ⟨hI.1, List.nodup_singleton url, ?_⟩
    intro u hu hu'
    simp at hu'
    exact hnv (hu' ▸ hI.2 u hu)
  · intro u hu
    simp only [pageFetches_append, pageFetches_cons_fetchPage,
      pageFetches_cons_writeText, pageFetches_nil, himg, List.append_nil, hf,
      List.mem_append, List.mem_singleton] at hu
    show u ∈ t.visitedUrls
    rw [hv]
    rcases hu with hu | hu
    · exact List.mem_cons_of_mem _ (hI.2 u hu)
    · exact hu ▸ List.mem_cons_self ..

theorem scrape_CrawlInv (w : World) :
    ∀ url depth b s, CrawlInv s → CrawlInv (scrape w url depth b s) := by
  intro url depth b s
  refine scrape.induct w
    (fun url depth b s => CrawlInv s → CrawlInv (scrape w url depth b s))
    (fun links depth base s => CrawlInv s → CrawlInv (scrapeLinks w links depth base s))
    ?_ ?_ ?_ ?_ ?_ url depth b s
  · intro url depth b s hgate hI
    rw [scrape.eq_def, if_pos hgate]
    exact hI
  · intro url depth b s hgate hfetch hI
    have hnv : url ∉ s.visitedUrls := fun hv => hgate (Or.inl hv)
    rw [scrape.eq_def, if_neg hgate]
    simp only [hfetch]
    constructor
    · simp only [pageFetches_append, pageFetches_resolveBase,
        pageFetches_cons_log, pageFetches_cons_makeDir,
        pageFetches_cons_fetchPage, pageFetches_nil, List.append_nil]
      rw [List.nodup_append]
      refine ⟨hI.1, List.nodup_singleton url, ?_⟩
      intro u hu hu'
      simp at hu'
      exact hnv (hu' ▸ hI.2 u hu)
    · intro u hu
      simp only [pageFetches_append, pageFetches_resolveBase,
        pageFetches_cons_log, pageFetches_cons_makeDir,
        pageFetches_cons_fetchPage, pageFetches_nil, List.append_nil,
        List.mem_append, List.mem_singleton] at hu
      rcases hu with hu | hu
      · exact List.mem_cons_of_mem _ (hI.2 u hu)
      · exact hu ▸ List.mem_cons_self ..
  · intro url depth b s hgate s1 rb base s2 s3 page hfetch ih hI
    have hnv : url ∉ s.visitedUrls := fun hv => hgate (Or.inl hv)
    rw [scrape.eq_def, if_neg hgate]
    simp only [hfetch]
    apply ih
    apply CrawlInv_processPage w url depth base page s3 s ?_ ?_ hnv hI
    · rfl
    · simp only [s3, s2, s1, rb, pageFetches_append, pageFetches_resolveBase,
        pageFetches_cons_log, pageFetches_cons_makeDir, pageFetches_nil,
        List.append_nil]
  · intro depth base s hI
    rw [scrapeLinks.eq_def]
    exact hI
  · intro depth base s u us s' ih1 ih2 hI
    rw [scrapeLinks.eq_def]
    apply ih2
    by_cases hu : u ∈ s.visitedUrls
    · simp only [s', dif_pos hu]
      exact hI
    · simp only [s', dif_neg hu]
      exact ih1 hI

/-! ### Frame lemma: what one invocation adds to the trace -/

theorem rootOf_resolveBase (url : Url) (b : Option FPath) :
    (resolveBase url b).1 = rootOf url b := by
  cases b <;> rfl

theorem imageEvents_underRoot (w : World) (u : Url) (B : FPath) :
    ∀ e ∈ imageEvents w u (B ++ "/img"), underRootEv B e := by
  intro e he
  unfold imageEvents download_image_try at he
  cases hf : w.fetchImage u <;> rw [hf] at he <;> simp at he
  · rcases he with h | h <;> subst h <;> trivial
  · rcases he with h | h | h <;> subst h
    · trivial
    · exact ⟨image_name u, rfl⟩
    · trivial

theorem imageEventsOf_underRoot (w : World) (us : List Url) (B : FPath) :
    ∀ e ∈ imageEventsOf w us (B ++ "/img"), underRootEv B e := by
  induction us with
  | nil => intro e he; simp [imageEventsOf] at he
  | cons u us ih =>
      intro e he
      rw [imageEventsOf] at he
      rcases List.mem_append.1 he with h | h
      · exact imageEvents_underRoot w u B e h
      · exact ih e h

theorem extUnder_refl (B : FPath) (s : CrawlState) : ExtUnder B s s :=
  ⟨fun _ hv => hv, [], (List.append_nil _).symm, fun e he => absurd he (List.not_mem_nil e)⟩

theorem extUnder_trans (B : FPath) (s t u : CrawlState)
    (h1 : ExtUnder B s t) (h2 : ExtUnder B t u) : ExtUnder B s u := by
  obtain ⟨hv1, Δ1, he1, hu1⟩ := h1
  obtain ⟨hv2, Δ2, he2, hu2⟩ := h2
  refine ⟨fun v hv => hv2 v (hv1 v hv), Δ1 ++ Δ2, ?_, ?_⟩
  · rw [he2, he1, List.append_assoc]
  · intro e he
    rcases List.mem_append.1 he with h | h
    · exact hu1 e h
    · exact hu2 e h

theorem extUnder_processPage (w : World) (url : Url) (depth : Nat)
    (B : FPath) (page : Page) (t : CrawlState) :
    ExtUnder B t (processPage w url depth B page t) := by
  rw [processPage, downloadImages_eq]
  refine ⟨fun v hv => hv, [Event.fetchPage url depth true,
      Event.writeText url (page_filename B depth) (page_text_of page)] ++
      imageEventsOf w (page.imgSrcs.map (w.urljoin url)) (B ++ "/img"),
    by simp, ?_⟩
  intro e he
  rcases List.mem_append.1 he with h | h
  · simp at h
    rcases h with h | h <;> subst h
    · trivial
    · exact ⟨depth, rfl⟩
  · exact imageEventsOf_underRoot w _ B e h

theorem scrape_frame (w : World) :
    ∀ url depth b s, ExtUnder (resolveBase url b).1 s (scrape w url depth b s) := by
  intro url depth b s
  refine scrape.induct w
    (fun url depth b s => ExtUnder (resolveBase url b).1 s (scrape w url depth b s))
    (fun links depth base s =>
      ExtUnder base s (scrapeLinks w links depth base s))
    ?_ ?_ ?_ ?_ ?_ url depth b s
  · intro url depth b s hgate
    rw [scrape.eq_def, if_pos hgate]
    exact extUnder_refl ..
  · intro url depth b s hgate hfetch
    rw [scrape.eq_def, if_neg hgate]
    simp only [hfetch]
    refine ⟨fun v hv => List.mem_cons_of_mem _ hv,
      [Event.log ("Scraping: " ++ url ++ " depth " ++ toString depth)] ++
        (resolveBase url b).2 ++
        [Event.makeDir ((resolveBase url b).1 ++ "/img"),
         Event.makeDir ((resolveBase url b).1 ++ "/text")] ++
        [Event.fetchPage url depth false,
         Event.log ("Failed to retrieve " ++ url)], by simp, ?_⟩
    intro e he
    simp only [List.append_assoc, List.mem_append, List.mem_cons,
      List.mem_singleton, List.not_mem_nil, or_false] at he
    rcases he with h | h | (h | h) | (h | h)
    · subst h; trivial
    · cases b with
      | some x => simp [resolveBase] at h
      | none =>
          simp only [resolveBase, List.mem_singleton] at h
          subst h
          exact Or.inl rfl
    · subst h; exact Or.inr (Or.inl rfl)
    · subst h; exact Or.inr (Or.inr rfl)
    · subst h; trivial
    · subst h; trivial
  · intro url depth b s hgate s1 rb base s2 s3 page hfetch ih
    rw [scrape.eq_def, if_neg hgate]
    simp only [hfetch]
    have h03 : ExtUnder (resolveBase url b).1 s s3 := by
      refine ⟨fun v hv => List.mem_cons_of_mem _ hv,
        [Event.log ("Scraping: " ++ url ++ " depth " ++ toString depth)] ++
          (resolveBase url b).2 ++
          [Event.makeDir ((resolveBase url b).1 ++ "/img"),
           Event.makeDir ((resolveBase url b).1 ++ "/text")],
        by simp [s3, s2, s1, rb, List.append_assoc], ?_⟩
      intro e he
      simp only [List.append_assoc, List.mem_append, List.mem_cons,
        List.mem_singleton, List.not_mem_nil, or_false] at he
      rcases he with h | h | (h | h)
      · subst h; trivial
      · cases b with
        | some x => simp [resolveBase] at h
        | none =>
            simp only [resolveBase, List.mem_singleton] at h
            subst h
            exact Or.inl rfl
      · subst h; exact Or.inr (Or.inl rfl)
      · subst h; exact Or.inr (Or.inr rfl)
    have h34 : ExtUnder (resolveBase url b).1 s3
        (processPage w url depth (resolveBase url b).1 page s3) :=
      extUnder_processPage w url depth (resolveBase url b).1 page s3
    exact extUnder_trans _ _ _ _ (extUnder_trans _ _ _ _ h03 h34) ih
  · intro depth base s
    rw [scrapeLinks.eq_def]
    exact extUnder_refl ..
  · intro depth base s u us s' ih1 ih2
    rw [scrapeLinks.eq_def]
    refine extUnder_trans _ _ _ _ ?_ ih2
    by_cases hu : u ∈ s.visitedUrls
    · simp only [s', dif_pos hu]
      exact extUnder_refl ..
    · simp only [s', dif_neg hu]
      exact ih1

/-! ### Image failures do not influence the page-level crawl -/

theorem pageRel_processPage (w w' : World) (url : Url) (depth : Nat)
    (base : FPath) (page : Page) (a b : CrawlState) (h : pageRel a b) :
    pageRel (processPage w url depth base page a)
      (processPage w' url depth base page b) := by
  have ha := pageView_of_isImage _
    (imageEventsOf_isImage w (page.imgSrcs.map (w.urljoin url)) (base ++ "/img"))
  have hb := pageView_of_isImage _
    (imageEventsOf_isImage w' (page.imgSrcs.map (w'.urljoin url)) (base ++ "/img"))
  rw [processPage, processPage, downloadImages_eq, downloadImages_eq]
  refine ⟨h.1, ?_⟩
  simp only [pageView_append, ha, hb, List.append_nil,
    pageView_cons_fetchPage, pageView_cons_writeText, pageView_nil]
  rw [h.2]

theorem scrape_pageRel (w w' : World)
    (hp : w'.fetchPage = w.fetchPage) (hj : w'.urljoin = w.urljoin) :
    ∀ url depth b s t, pageRel s t →
      pageRel (scrape w url depth b s) (scrape w' url depth b t) := by
  intro url depth b s
  refine scrape.induct w
    (fun url depth b s => ∀ t, pageRel s t →
      pageRel (scrape w url depth b s) (scrape w' url depth b t))
    (fun links depth base s => ∀ t, pageRel s t →
      pageRel (scrapeLinks w links depth base s) (scrapeLinks w' links depth base t))
    ?_ ?_ ?_ ?_ ?_ url depth b s
  · intro url depth b s hgate t hrel
    have hgate' : url ∈ t.visitedUrls ∨ maxRekrusion ≤ depth := by
      rcases hgate with h | h
      · exact Or.inl (hrel.1 ▸ h)
      · exact Or.inr h
    rw [scrape.eq_def, if_pos hgate, scrape.eq_def, if_pos hgate']
    exact hrel
  · intro url depth b s hgate hfetch t hrel
    have hgate' : ¬(url ∈ t.visitedUrls ∨ maxRekrusion ≤ depth) := by
      intro hc
      rcases hc with h | h
      · exact hgate (Or.inl (hrel.1 ▸ h))
      · exact hgate (Or.inr h)
    have hfetch' : w'.fetchPage url = none := by rw [hp]; exact hfetch
    rw [scrape.eq_def, if_neg hgate, scrape.eq_def, if_neg hgate']
    simp only [hfetch, hfetch']
    refine ⟨by simp [hrel.1], ?_⟩
    simp only [pageView_append, pageView_resolveBase, pageView_cons_log,
      pageView_cons_makeDir, pageView_cons_fetchPage, pageView_nil]
    rw [hrel.2]
  · intro url depth b s hgate s1 rb base s2 s3 page hfetch ih t hrel
    have hgate' : ¬(url ∈ t.visitedUrls ∨ maxRekrusion ≤ depth) := by
      intro hc
      rcases hc with h | h
      · exact hgate (Or.inl (hrel.1 ▸ h))
      · exact hgate (Or.inr h)
    have hfetch' : w'.fetchPage url = some page := by rw [hp]; exact hfetch
    rw [scrape.eq_def, if_neg hgate, scrape.eq_def, if_neg hgate']
    simp only [hfetch, hfetch', hj]
    apply ih
    apply pageRel_processPage
    refine ⟨by simp [hrel.1], ?_⟩
    simp only [s3, s2, s1, base, rb, pageView_append, pageView_resolveBase,
      pageView_cons_log, pageView_cons_makeDir, pageView_nil]
    rw [hrel.2]
  · intro depth base s t hrel
    rw [scrapeLinks.eq_def, scrapeLinks.eq_def]
    exact hrel
  · intro depth base s u us s' ih1 ih2 t hrel
    rw [scrapeLinks.eq_def, scrapeLinks.eq_def]
    show pageRel
      (scrapeLinks w us depth base
        (if u ∈ s.visitedUrls then s else scrape w u depth (some base) s))
      (scrapeLinks w' us depth base
        (if u ∈ t.visitedUrls then t else scrape w' u depth (some base) t))
    by_cases hu : u ∈ s.visitedUrls
    · have hu' : u ∈ t.visitedUrls := hrel.1 ▸ hu
      rw [if_pos hu, if_pos hu']
      simp only [s'] at ih2
      rw [dif_pos hu] at ih2
      exact ih2 t hrel
    · have hu' : u ∉ t.visitedUrls := fun hc => hu (hrel.1 ▸ hc)
      rw [if_neg hu, if_neg hu']
      simp only [s'] at ih2
      rw [dif_neg hu] at ih2
      exact ih2 (scrape w' u depth (some base) t) (ih1 t hrel)

/-! ### Per-invocation unfolding lemmas -/

theorem scrapeLinks_frame (w : World) (links : List Url) (depth : Nat)
    (base : FPath) (s : CrawlState) :
    ExtUnder base s (scrapeLinks w links depth base s) := by
  induction links generalizing s with
  | nil =>
      rw [scrapeLinks.eq_def]
      exact extUnder_refl ..
  | cons l ls ih =>
      rw [scrapeLinks.eq_def]
      show ExtUnder base s (scrapeLinks w ls depth base
        (if l ∈ s.visitedUrls then s else scrape w l depth (some base) s))
      refine extUnder_trans _ _ _ _ ?_ (ih _)
      by_cases hl : l ∈ s.visitedUrls
      · rw [if_pos hl]
        exact extUnder_refl ..
      · rw [if_neg hl]
        exact scrape_frame w l depth (some base) s

theorem scrape_fetchFail (w : World) (url : Url) (depth : Nat)
    (b : Option FPath) (s : CrawlState) (hnv : url ∉ s.visitedUrls)
    (hd : depth < maxRekrusion) (hf : w.fetchPage url = none) :
    scrape w url depth b s =
      { visitedUrls := url :: s.visitedUrls,
        events := s.events ++
          [Event.log ("Scraping: " ++ url ++ " depth " ++ toString depth)] ++
          (resolveBase url b).2 ++
          [Event.makeDir ((resolveBase url b).1 ++ "/img"),
           Event.makeDir ((resolveBase url b).1 ++ "/text"),
           Event.fetchPage url depth false,
           Event.log ("Failed to retrieve " ++ url)] } := by
  have hgate : ¬(url ∈ s.visitedUrls ∨ maxRekrusion ≤ depth) := by
    intro hc
    rcases hc with h | h
    · exact hnv h
    · omega
  rw [scrape.eq_def, if_neg hgate]
  simp only [hf]
  simp [List.append_assoc]

theorem scrape_fetchOk (w : World) (url : Url) (depth : Nat)
    (b : Option FPath) (s : CrawlState) (page : Page)
    (hnv : url ∉ s.visitedUrls) (hd : depth < maxRekrusion)
    (hf : w.fetchPage url = some page) :
    ∃ rest, (scrape w url depth b s).events =
      s.events ++
      [Event.log ("Scraping: " ++ url ++ " depth " ++ toString depth)] ++
      (resolveBase url b).2 ++
      [Event.makeDir ((resolveBase url b).1 ++ "/img"),
       Event.makeDir ((resolveBase url b).1 ++ "/text"),
       Event.fetchPage url depth true,
       Event.writeText url (page_filename (resolveBase url b).1 depth)
         (page_text_of page)] ++ rest := by
  have hgate : ¬(url ∈ s.visitedUrls ∨ maxRekrusion ≤ depth) := by
    intro hc
    rcases hc with h | h
    · exact hnv h
    · omega
  rw [scrape.eq_def, if_neg hgate]
  simp only [hf]
  obtain ⟨-, Δ, hΔ, -⟩ := scrapeLinks_frame w
    (List.map (w.urljoin url) page.hrefs) (depth + 1) (resolveBase url b).1
    (processPage w url depth (resolveBase url b).1 page
      { visitedUrls := url :: s.visitedUrls,
        events := s.events ++
          [Event.log ("Scraping: " ++ url ++ " depth " ++ toString depth)] ++
          (resolveBase url b).2 ++
          [Event.makeDir ((resolveBase url b).1 ++ "/img"),
           Event.makeDir ((resolveBase url b).1 ++ "/text")] })
  refine ⟨imageEventsOf w (page.imgSrcs.map (w.urljoin url))
      ((resolveBase url b).1 ++ "/img") ++ Δ, ?_⟩
  rw [show (processPage w url depth (resolveBase url b).1 page
      { visitedUrls := url :: s.visitedUrls,
        events :=
          ((s.events ++
            [Event.log ("Scraping: " ++ url ++ " depth " ++ toString depth)]) ++
            (resolveBase url b).2) ++
          [Event.makeDir ((resolveBase url b).1 ++ "/img"),
           Event.makeDir ((resolveBase url b).1 ++ "/text")] }) =
      (processPage w url depth (resolveBase url b).1 page
      { visitedUrls := url :: s.visitedUrls,
        events := s.events ++
          [Event.log ("Scraping: " ++ url ++ " depth " ++ toString depth)] ++
          (resolveBase url b).2 ++
          [Event.makeDir ((resolveBase url b).1 ++ "/img"),
           Event.makeDir ((resolveBase url b).1 ++ "/text")] }) from rfl]
  rw [hΔ]
  rw [processPage, downloadImages_eq]
  simp [List.append_assoc]

/-! ### Spec-side formulations for refinement comparisons -/

theorem intercalate_go_eq (sep : String) :
    ∀ (ts : List String) (acc : String),
      String.intercalate.go acc sep ts = acc ++ joinSuffix sep ts := by
  intro ts
  induction ts with
  | nil => intro acc; simp [String.intercalate.go, joinSuffix]
  | cons t ts ih =>
      intro acc
      rw [String.intercalate.go, ih, joinSuffix]
      simp [String.append_assoc]

theorem cons_joinSuffix_eq_spec :
    ∀ (ts : List String) (t : String),
      t ++ joinSuffix "\n" ts = specTextAmended (t :: ts) := by
  intro ts
  induction ts with
  | nil => intro t; simp [joinSuffix, specTextAmended]
  | cons u us ih =>
      intro t
      rw [joinSuffix]
      show t ++ ("\n" ++ u ++ joinSuffix "\n" us) =
        t ++ "\n" ++ specTextAmended (u :: us)
      rw [← ih u]
      simp [String.append_assoc]

theorem intercalate_eq_specTextAmended (ts : List String) :
    String.intercalate "\n" ts = specTextAmended ts := by
  cases ts with
  | nil => rfl
  | cons t ts =>
      rw [String.intercalate, intercalate_go_eq, cons_joinSuffix_eq_spec]

theorem sanitizeChar_eq_spec (c : Char) : sanitizeChar c = specSanitizeChar c := by
  rw [sanitizeChar, specSanitizeChar, Char.isAlphanum]
  by_cases h1 : c.isAlpha <;> by_cases h2 : c.isDigit <;>
    by_cases h3 : c = '_' <;> by_cases h4 : c = '.' <;>
    simp [h1, h2, h3, h4]

theorem takeWhile_append_cons_of_neg {α : Type} (p : α → Bool) (x : α)
    (hx : p x = false) :
    ∀ (l r : List α), (l ++ x :: r).takeWhile p = l.takeWhile p := by
  intro l r
  induction l with
  | nil => simp [List.takeWhile_cons, hx]
  | cons a l ih =>
      by_cases ha : p a <;> simp [List.takeWhile_cons, ha, ih]

theorem specLastSegment_eq :
    ∀ (cs acc : List Char), '/' ∉ acc →
      specLastSegment acc cs =
        ((cs.reverse ++ acc).takeWhile (· ≠ '/')).reverse := by
  intro cs
  induction cs with
  | nil =>
      intro acc hacc
      rw [specLastSegment]
      simp only [List.reverse_nil, List.nil_append]
      rw [List.takeWhile_eq_self_iff.mpr]
      intro x hx
      simp only [ne_eq, decide_eq_true_eq]
      intro hc
      exact hacc (hc ▸ hx)
  | cons c cs ih =>
      intro acc hacc
      rw [specLastSegment]
      by_cases hc : c = '/'
      · rw [if_pos hc, ih [] (List.not_mem_nil _), hc]
        simp only [List.append_nil, List.reverse_cons, List.append_assoc,
          List.singleton_append]
        rw [takeWhile_append_cons_of_neg (· ≠ '/') '/' (by simp)]
      · rw [if_neg hc, ih (c :: acc) (by
          intro hmem
          rcases List.mem_cons.1 hmem with h | h
          · exact hc h.symm
          · exact hacc h)]
        simp only [List.reverse_cons, List.append_assoc, List.singleton_append]

theorem basename_eq_specLastSegment (s : String) :
    basename s = String.mk (specLastSegment [] s.data) := by
  rw [basename, specLastSegment_eq s.data [] (List.not_mem_nil _)]
  simp

theorem image_name_eq_spec (img_url : Url) :
    image_name img_url = specImageName img_url := by
  rw [image_name, specImageName, basename_eq_specLastSegment]
  congr 1
  exact List.map_congr_left (fun c _ => sanitizeChar_eq_spec c)

theorem replaceDots_eq_spec (s : String) :
    replaceDots s = String.mk (specUnderscoreHost s.data) := by
  rw [replaceDots]
  congr 1
  induction s.data with
  | nil => rfl
  | cons c cs ih => rw [List.map_cons, specUnderscoreHost, ih]

@[simp] theorem isImageEvent_makeDir (p : FPath) :
    isImageEvent (Event.makeDir p) = false := rfl

@[simp] theorem isImageEvent_fetchPage (u : Url) (d : Nat) (ok : Bool) :
    isImageEvent (Event.fetchPage u d ok) = false := rfl

@[simp] theorem isImageEvent_writeText (u : Url) (p : FPath) (c : String) :
    isImageEvent (Event.writeText u p c) = false := rfl

@[simp] theorem isImageEvent_fetchImage (u : Url) (ok : Bool) :
    isImageEvent (Event.fetchImage u ok) = true := rfl

@[simp] theorem isImageEvent_writeImage (p : FPath) :
    isImageEvent (Event.writeImage p) = true := rfl

@[simp] theorem isImageEvent_log (m : String) :
    isImageEvent (Event.log m) = false := rfl

@[simp] theorem isImageEvent_logImage (m : String) :
    isImageEvent (Event.logImage m) = true := rfl

/-! ### The claims -/

/-- C1: within one run no URL is ever fetched twice: the list of page
fetches issued by a crawl is duplicate-free, and every fetched URL is in
the visited set by the time the run ends (each URL is marked visited
before its fetch is issued, so later invocations return at the gate). -/
theorem claim1_fetch_once (w : World) (seed : Url) :
    (pageFetches (crawl w seed).events).Nodup ∧
    ∀ u ∈ pageFetches (crawl w seed).events, u ∈ (crawl w seed).visitedUrls := by
  refine scrape_CrawlInv w seed 0 none initState ⟨List.nodup_nil, ?_⟩
  intro u hu
  simp [initState] at hu

/-- Witness for C1 at a concrete crawl: `http://s.com/a` is fetched once
during the crawl of `wTree` and therefore ends up in the visited set. -/
theorem claim1_fetch_once_witness :
    "http://s.com/a" ∈ (crawl wTree "http://s.com/").visitedUrls := by
  apply (claim1_fetch_once wTree "http://s.com/").2 "http://s.com/a"
  have hpf : pageFetches (crawl wTree "http://s.com/").events =
      ["http://s.com/", "http://s.com/a", "http://s.com/a1", "http://s.com/b"] := by
    simp [crawl, initState, scrape.eq_def, scrapeLinks.eq_def, wTree,
      processPage, downloadImages, download_image, download_image_try,
      resolveBase, maxRekrusion, get_domain_folder, replaceDots, netloc,
      page_filename, page_text_of]
  rw [hpf]
  decide

/-- C2: an invocation whose URL is already visited or whose depth reached
the configured maximum (100) returns the state unchanged: no fetch, no
directory creation, no file write, no visited-set mutation, no recursion. -/
theorem claim2_gate_short_circuit (w : World) (url : Url) (depth : Nat)
    (b : Option FPath) (s : CrawlState)
    (h : url ∈ s.visitedUrls ∨ maxRekrusion ≤ depth) :
    scrape w url depth b s = s ∧ maxRekrusion = 100 := by
  rw [scrape.eq_def, if_pos h]
  exact ⟨rfl, rfl⟩

/-- Witness for C2: at depth 100 the crawler does nothing at all. -/
theorem claim2_gate_short_circuit_witness :
    scrape wFail "http://x.com/" 100 none initState = initState ∧
    maxRekrusion = 100 :=
  claim2_gate_short_circuit wFail "http://x.com/" 100 none initState
    (Or.inr (by decide))

/-- C3: a node whose page fetch fails only logs and terminates: the node
stays marked visited, no text file is written for it, no image activity
happens, exactly its own fetch attempt is recorded and no recursive fetch
follows, and the surrounding state (hence sibling nodes) is otherwise
untouched. -/
theorem claim3_fetch_failure_isolated (w : World) (url : Url) (depth : Nat)
    (b : Option FPath) (s : CrawlState) (hnv : url ∉ s.visitedUrls)
    (hd : depth < maxRekrusion) (hf : w.fetchPage url = none) :
    (scrape w url depth b s).visitedUrls = url :: s.visitedUrls ∧
    textWrites (scrape w url depth b s).events = textWrites s.events ∧
    (scrape w url depth b s).events.filter isImageEvent =
      s.events.filter isImageEvent ∧
    pageFetches (scrape w url depth b s).events =
      pageFetches s.events ++ [url] ∧
    Event.log ("Failed to retrieve " ++ url) ∈ (scrape w url depth b s).events := by
  rw [scrape_fetchFail w url depth b s hnv hd hf]
  refine ⟨rfl, ?_, ?_, ?_, ?_⟩
  · simp [textWrites_resolveBase]
  · cases b <;> simp [resolveBase, List.filter_append]
  · simp [pageFetches_resolveBase]
  · simp

/-- Witness for C3 at a concrete failing fetch. -/
theorem claim3_fetch_failure_isolated_witness :
    (scrape wFail "http://x.com/" 0 none initState).visitedUrls =
      ["http://x.com/"] ∧
    textWrites (scrape wFail "http://x.com/" 0 none initState).events = [] ∧
    (scrape wFail "http://x.com/" 0 none initState).events.filter isImageEvent
      = [] ∧
    pageFetches (scrape wFail "http://x.com/" 0 none initState).events =
      ["http://x.com/"] ∧
    Event.log "Failed to retrieve http://x.com/" ∈
      (scrape wFail "http://x.com/" 0 none initState).events :=
  claim3_fetch_failure_isolated wFail "http://x.com/" 0 none initState
    (by decide) (by decide) rfl

/-- C4 counterexample: it is not true that every persisted page is stored
under the root derived from that page's own host.  In the concrete crawl
`wCross` the page `http://b.com/` is written under `data/a_com`, the root
derived from the seed's host, not under `data/b_com`. -/
theorem claim4_counterexample :
    ¬ ∀ e ∈ textWrites (crawl wCross "http://a.com/").events,
        pathUnder (get_domain_folder e.1) e.2.1 := by
  have hw : textWrites (crawl wCross "http://a.com/").events =
      [("http://a.com/", "data/a_com/text/page_0.txt", "A"),
       ("http://b.com/", "data/a_com/text/page_1.txt", "B")] := by
    simp [crawl, initState, scrape.eq_def, scrapeLinks.eq_def, wCross,
      processPage, downloadImages, download_image, download_image_try,
      resolveBase, maxRekrusion, get_domain_folder, replaceDots, netloc,
      page_filename, page_text_of]
    all_goals decide
  simp only [hw]
  intro h
  have hb := h ("http://b.com/", "data/a_com/text/page_1.txt", "B") (by simp)
  revert hb
  decide

/-- C4 amended: every artifact of a crawl (directory, text file, image
file) lives under the single root directory derived from the seed URL's
host — the base folder computed at the first gate-passing invocation and
threaded unchanged through every recursive call, whatever host each page
itself is on. -/
theorem claim4_amended_seed_root (w : World) (seed : Url) :
    ∀ e ∈ (crawl w seed).events, underRootEv (get_domain_folder seed) e := by
  obtain ⟨-, Δ, hΔ, hU⟩ := scrape_frame w seed 0 none initState
  intro e he
  rw [crawl] at he
  rw [hΔ] at he
  simp only [initState, List.nil_append] at he
  exact hU e he

/-- Witness for C4 amended: in the cross-host crawl even the `b.com`
page's text file is an artifact under the seed root `data/a_com`. -/
theorem claim4_amended_seed_root_witness :
    underRootEv (get_domain_folder "http://a.com/")
      (Event.writeText "http://b.com/" "data/a_com/text/page_1.txt" "B") := by
  apply claim4_amended_seed_root wCross "http://a.com/"
  have hev : (crawl wCross "http://a.com/").events =
      [Event.log "Scraping: http://a.com/ depth 0",
       Event.makeDir "data/a_com",
       Event.makeDir "data/a_com/img",
       Event.makeDir "data/a_com/text",
       Event.fetchPage "http://a.com/" 0 true,
       Event.writeText "http://a.com/" "data/a_com/text/page_0.txt" "A",
       Event.log "Scraping: http://b.com/ depth 1",
       Event.makeDir "data/a_com/img",
       Event.makeDir "data/a_com/text",
       Event.fetchPage "http://b.com/" 1 true,
       Event.writeText "http://b.com/" "data/a_com/text/page_1.txt" "B"] := by
    simp [crawl, initState, scrape.eq_def, scrapeLinks.eq_def, wCross,
      processPage, downloadImages, download_image, download_image_try,
      resolveBase, maxRekrusion, get_domain_folder, replaceDots, netloc,
      page_filename, page_text_of]
    all_goals decide
  rw [hev]
  decide

/-- C5 counterexample: an element whose stripped text is empty does
contribute to the extracted text — it produces a blank line.  On the
element texts `["Hello", "", "World"]` the code yields
`"Hello\n\nWorld"`, not the `"Hello\nWorld"` the claim demands. -/
theorem claim5_counterexample :
    page_text_of ⟨["Hello", "", "World"], [], []⟩ = "Hello\n\nWorld" ∧
    specTextOriginal ["Hello", "", "World"] = "Hello\nWorld" ∧
    page_text_of ⟨["Hello", "", "World"], [], []⟩ ≠
      specTextOriginal ["Hello", "", "World"] := by
  refine ⟨by decide, by decide, by decide⟩

/-- C5 amended: the extracted text is the newline-separated join of the
stripped text of every matched element in document order, where an
element with no text contributes an empty line (so consecutive newlines
appear around it). -/
theorem claim5_amended_text_join (p : Page) :
    page_text_of p = specTextAmended p.texts := by
  rw [page_text_of]
  exact intercalate_eq_specTextAmended p.texts

/-- C6 counterexample: the raw image filename `photo name?v=2.jpg` does
not map to `photo_name.jpg`: the query split happens first, so the
`.jpg` inside the query string is stripped and the stored name is
`photo_name`. -/
theorem claim6_counterexample :
    image_name "http://x.com/photo name?v=2.jpg" = "photo_name" ∧
    image_name "http://x.com/photo name?v=2.jpg" ≠ "photo_name.jpg" := by
  refine ⟨by decide, by decide⟩

/-- C6 amended: the stored filename is obtained by stripping the query
string, taking the final path segment and replacing every character
outside the alphanumeric/underscore/period class by `_` (periods kept);
the example `photo name?v=2.jpg` maps to `photo_name` (its `.jpg` is part
of the query), while `photo name.jpg?v=2` maps to `photo_name.jpg`. -/
theorem claim6_amended_image_name :
    (∀ img_url : Url, image_name img_url = specImageName img_url) ∧
    image_name "http://x.com/photo name?v=2.jpg" = "photo_name" ∧
    image_name "http://x.com/photo name.jpg?v=2" = "photo_name.jpg" :=
  ⟨image_name_eq_spec, by decide, by decide⟩

/-- C7: the on-disk layout.  The site root is `data/<host>` with every
`.` of the host replaced by `_`; the text file of a page is
`<root>/text/page_<depth>.txt`, keyed only by the depth counter — in the
concrete crawl of `wSite` the two distinct sibling pages reached at depth
1 write to the same text file path — and images are stored in the fixed
`<root>/img` subdirectory. -/
theorem claim7_layout :
    (∀ url : Url, get_domain_folder url =
        "data/" ++ String.mk (specUnderscoreHost (netloc url).data)) ∧
    (∀ (base : FPath) (depth : Nat),
        page_filename base depth =
          base ++ "/text/page_" ++ toString depth ++ ".txt") ∧
    textWrites (crawl wSite "http://h.com/").events =
      [("http://h.com/", "data/h_com/text/page_0.txt", "T"),
       ("http://h.com/a", "data/h_com/text/page_1.txt", "TA"),
       ("http://h.com/b", "data/h_com/text/page_1.txt", "TB")] ∧
    Event.writeImage "data/h_com/img/i.png" ∈
      (crawl wSite "http://h.com/").events := by
  refine ⟨?_, fun base depth => rfl, ?_, ?_⟩
  · intro url
    rw [get_domain_folder, replaceDots_eq_spec]
  · simp [crawl, initState, scrape.eq_def, scrapeLinks.eq_def, wSite,
      processPage, downloadImages, download_image, download_image_try,
      resolveBase, maxRekrusion, get_domain_folder, replaceDots, netloc,
      page_filename, page_text_of]
    all_goals decide
  · simp [crawl, initState, scrape.eq_def, scrapeLinks.eq_def, wSite,
      processPage, downloadImages, download_image, download_image_try,
      imageEvents, image_name, basename, splitQuery, sanitizeChar,
      resolveBase, maxRekrusion, get_domain_folder, replaceDots, netloc,
      page_filename, page_text_of]
    all_goals decide

/-- C8: image fetching never propagates a failure.  A failed image fetch
only appends the failure record and the log of `download_image`, and the
whole page-level behaviour of a crawl — visited set, directories, page
fetches and text files — is identical under any two image services. -/
theorem claim8_images_never_propagate :
    (∀ (w : World) (u : Url) (dir : FPath) (s : CrawlState),
        ∃ evs, download_image w u dir s =
          { s with events := s.events ++ evs }) ∧
    (∀ (w : World) (u : Url) (dir : FPath) (s : CrawlState),
        w.fetchImage u = none →
        download_image w u dir s =
          { s with events := s.events ++
              [Event.fetchImage u false,
               Event.logImage ("Failed to download image " ++ u)] }) ∧
    (∀ (w w' : World) (seed : Url),
        w'.fetchPage = w.fetchPage → w'.urljoin = w.urljoin →
        (crawl w' seed).visitedUrls = (crawl w seed).visitedUrls ∧
        pageView (crawl w' seed).events = pageView (crawl w seed).events) := by
  refine ⟨?_, ?_, ?_⟩
  · intro w u dir s
    exact ⟨imageEvents w u dir, download_image_eq w u dir s⟩
  · intro w u dir s hfi
    simp [download_image, download_image_try, hfi]
  · intro w w' seed hp hj
    have h := scrape_pageRel w w' hp hj seed 0 none initState initState
      ⟨rfl, rfl⟩
    exact ⟨h.1.symm, h.2.symm⟩

/-- Witness for C8: a concrete failed image fetch returns normally with
only its failure log, and the crawl of `wSite` with an always-failing
image service visits the same URLs and produces the same page-level trace
as with the working one. -/
theorem claim8_images_never_propagate_witness :
    download_image wFail "http://x.com/p.png" "data/x_com/img" initState =
      { visitedUrls := [],
        events := [Event.fetchImage "http://x.com/p.png" false,
          Event.logImage "Failed to download image http://x.com/p.png"] } ∧
    ((crawl wSiteImgFail "http://h.com/").visitedUrls =
        (crawl wSite "http://h.com/").visitedUrls ∧
      pageView (crawl wSiteImgFail "http://h.com/").events =
        pageView (crawl wSite "http://h.com/").events) :=
  ⟨claim8_images_never_propagate.2.1 wFail "http://x.com/p.png"
      "data/x_com/img" initState rfl,
    claim8_images_never_propagate.2.2 wSite wSiteImgFail "http://h.com/"
      rfl rfl⟩

/-- C9: after a successful fetch the Orchestrator processes the page and
then recurses over the discovered links in document order at `depth + 1`
with the site root unchanged; the link loop handles the head link's whole
subtree (a complete recursive `scrape` call) before the next sibling, so
the traversal is depth-first pre-order — as the fetch order of the
concrete tree crawl `wTree` shows, with depth increasing by exactly 1 per
hop from the seed's depth 0. -/
theorem claim9_depth_first_recursion :
    (∀ (w : World) (url : Url) (depth : Nat) (base : FPath) (s : CrawlState)
        (page : Page),
        url ∉ s.visitedUrls → depth < maxRekrusion →
        w.fetchPage url = some page →
        scrape w url depth (some base) s =
          scrapeLinks w (page.hrefs.map (w.urljoin url)) (depth + 1) base
            (processPage w url depth base page
              { visitedUrls := url :: s.visitedUrls,
                events := s.events ++
                  [Event.log ("Scraping: " ++ url ++ " depth " ++
                    toString depth),
                   Event.makeDir (base ++ "/img"),
                   Event.makeDir (base ++ "/text")] })) ∧
    (∀ (w : World) (l : Url) (ls : List Url) (depth : Nat) (base : FPath)
        (s : CrawlState),
        scrapeLinks w (l :: ls) depth base s =
          scrapeLinks w ls depth base
            (if l ∈ s.visitedUrls then s else scrape w l depth (some base) s)) ∧
    pageFetchesD (crawl wTree "http://s.com/").events =
      [("http://s.com/", 0), ("http://s.com/a", 1), ("http://s.com/a1", 2),
       ("http://s.com/b", 1)] := by
  refine ⟨?_, ?_, ?_⟩
  · intro w url depth base s page hnv hd hf
    have hgate : ¬(url ∈ s.visitedUrls ∨ maxRekrusion ≤ depth) := by
      intro hc
      rcases hc with h | h
      · exact hnv h
      · omega
    rw [scrape.eq_def, if_neg hgate]
    simp only [hf]
    simp [resolveBase, List.append_assoc]
  · intro w l ls depth base s
    rw [scrapeLinks.eq_def]
  · simp [crawl, initState, scrape.eq_def, scrapeLinks.eq_def, wTree,
      processPage, downloadImages, download_image, download_image_try,
      resolveBase, maxRekrusion, get_domain_folder, replaceDots, netloc,
      page_filename, page_text_of, pageFetchesD]

/-- Witness for C9 at a concrete successful fetch: the leaf page
`http://s.com/a1` of `wTree`, entered at depth 2, hands its (empty) link
list to the loop at depth 3 with the base folder unchanged. -/
theorem claim9_depth_first_recursion_witness :
    scrape wTree "http://s.com/a1" 2 (some "data/s_com") initState =
      scrapeLinks wTree (([] : List String).map (wTree.urljoin "http://s.com/a1"))
        3 "data/s_com"
        (processPage wTree "http://s.com/a1" 2 "data/s_com" ⟨[], [], []⟩
          { visitedUrls := ["http://s.com/a1"],
            events := [Event.log "Scraping: http://s.com/a1 depth 2",
              Event.makeDir "data/s_com/img",
              Event.makeDir "data/s_com/text"] }) :=
  claim9_depth_first_recursion.1 wTree "http://s.com/a1" 2 "data/s_com"
    initState ⟨[], [], []⟩ (by decide) (by decide) (by decide)

/-- C10: every gate-passing invocation creates the site root (when it is
this invocation that derives it), `img` and `text` directories before the
page fetch is attempted — they appear in the trace ahead of the fetch
record both when the fetch fails and when it succeeds, so a failed-fetch
node still leaves the directories created (for a seed node exactly the
three of them) — while a gate-skipped invocation creates no directory at
all. -/
theorem claim10_dirs_before_fetch (w : World) (url : Url) (depth : Nat)
    (b : Option FPath) (s : CrawlState) :
    (url ∉ s.visitedUrls → depth < maxRekrusion → w.fetchPage url = none →
      scrape w url depth b s =
        { visitedUrls := url :: s.visitedUrls,
          events := s.events ++
            [Event.log ("Scraping: " ++ url ++ " depth " ++ toString depth)] ++
            (resolveBase url b).2 ++
            [Event.makeDir ((resolveBase url b).1 ++ "/img"),
             Event.makeDir ((resolveBase url b).1 ++ "/text"),
             Event.fetchPage url depth false,
             Event.log ("Failed to retrieve " ++ url)] }) ∧
    (url ∉ s.visitedUrls → depth < maxRekrusion → w.fetchPage url = none →
      dirsMade (scrape w url depth none s).events =
        dirsMade s.events ++
          [get_domain_folder url, get_domain_folder url ++ "/img",
           get_domain_folder url ++ "/text"]) ∧
    (∀ page, url ∉ s.visitedUrls → depth < maxRekrusion →
      w.fetchPage url = some page →
      ∃ rest, (scrape w url depth b s).events =
        s.events ++
        [Event.log ("Scraping: " ++ url ++ " depth " ++ toString depth)] ++
        (resolveBase url b).2 ++
        [Event.makeDir ((resolveBase url b).1 ++ "/img"),
         Event.makeDir ((resolveBase url b).1 ++ "/text"),
         Event.fetchPage url depth true,
         Event.writeText url (page_filename (resolveBase url b).1 depth)
           (page_text_of page)] ++ rest) ∧
    (url ∈ s.visitedUrls ∨ maxRekrusion ≤ depth →
      dirsMade (scrape w url depth b s).events = dirsMade s.events) := by
  refine ⟨?_, ?_, ?_, ?_⟩
  · intro hnv hd hf
    exact scrape_fetchFail w url depth b s hnv hd hf
  · intro hnv hd hf
    rw [scrape_fetchFail w url depth none s hnv hd hf]
    simp [resolveBase]
  · intro page hnv hd hf
    exact scrape_fetchOk w url depth b s page hnv hd hf
  · intro h
    rw [scrape.eq_def, if_pos h]

/-- Witness for C10: a concrete failed-fetch seed node creates exactly
its three directories, in order, before the failed fetch appears. -/
theorem claim10_dirs_before_fetch_witness :
    scrape wFail "http://x.com/" 0 none initState =
      { visitedUrls := ["http://x.com/"],
        events := [Event.log "Scraping: http://x.com/ depth 0",
          Event.makeDir "data/x_com",
          Event.makeDir "data/x_com/img",
          Event.makeDir "data/x_com/text",
          Event.fetchPage "http://x.com/" 0 false,
          Event.log "Failed to retrieve http://x.com/"] } := by
  have h := (claim10_dirs_before_fetch wFail "http://x.com/" 0 none
    initState).1 (by decide) (by decide) rfl
  rw [h]
  decide
